import Mathlib

/-!
Verification of the sandboxed path-resolution and file-metadata subsystem of
the STL Hub file manager (src/main.py), against its natural-language
specification.

The Python source is shallowly embedded: POSIX absolute paths are lists of
path segments, the filesystem is an explicit record of the existing
directories and files, and each Python helper (`safe_path`, `file_info`,
the listing sort, `delete_file`) becomes an executable Lean function
translated line by line from the source.  Python runtime behaviour that the
source relies on (str.replace, pathlib joining and resolution,
str.startswith, sorted with a key, shutil.rmtree, Path.unlink) is modelled
by small executable functions with the same semantics on the inputs the
program can produce.
-/

namespace STLHub

open List

/-! ### Python string primitives -/

/-- One scan step of Python `str.replace`: replace every non-overlapping
occurrence of `pat` in the character list, scanning left to right.  The
fuel argument is an upper bound on the number of steps; taking the length
of the subject string suffices because every step consumes at least one
character when `pat` is nonempty (all call sites use nonempty patterns). -/
def pyReplaceAux (pat rep : List Char) : Nat → List Char → List Char
  | 0, s => s
  | fuel + 1, s =>
    match s with
    | [] => []
    | c :: rest =>
      if decide (pat ≠ []) && decide (pat <+: s) then
        rep ++ pyReplaceAux pat rep fuel (s.drop pat.length)
      else
        c :: pyReplaceAux pat rep fuel rest

/-- Python `s.replace(pat, rep)`. -/
def pyReplace (s pat rep : String) : String :=
  ⟨pyReplaceAux pat.data rep.data s.data.length s.data⟩

/-- Python `str.lower` restricted to ASCII letters (the only case the
program distinguishes: extensions such as ".STL" and file names). -/
def lowerChar (c : Char) : Char :=
  if decide ('A' ≤ c) && decide (c ≤ 'Z') then Char.ofNat (c.toNat + 32) else c

/-- Python `s.lower()` (ASCII). -/
def strLower (s : String) : String := ⟨s.data.map lowerChar⟩

/-- Python `s.startswith(pre)`: a plain string prefix test on the
character sequences. -/
def pyStartswith (s pre : String) : Bool := decide (pre.data <+: s.data)

/-! ### POSIX paths as produced by pathlib -/

/-- An absolute POSIX path, as the list of its segments; `⟨[]⟩` is the
filesystem root "/". -/
structure PyPath where
  segs : List String
deriving DecidableEq

/-- Split a character list at every slash (Python `str.split("/")`). -/
def splitOnSlash : List Char → List (List Char)
  | [] => [[]]
  | c :: rest =>
    let r := splitOnSlash rest
    if c = '/' then [] :: r
    else
      match r with
      | [] => [[c]]
      | g :: gs => (c :: g) :: gs

/-- The segments pathlib keeps when parsing a path string: empty segments
(repeated or trailing slashes) and single-dot segments are dropped at
parse time, while ".." segments are kept. -/
def splitSegs (r : String) : List String :=
  ((splitOnSlash r.data).map (fun g => (⟨g⟩ : String))).filter
    (fun s => decide (s ≠ "" ∧ s ≠ "."))

/-- Whether a path string is absolute (leading slash). -/
def pyIsAbs (r : String) : Bool :=
  match r.data with
  | [] => false
  | c :: _ => decide (c = '/')

/-- pathlib `base / r`: when `r` is absolute it replaces the base entirely
(`PurePosixPath` joining semantics); otherwise its segments are appended. -/
def pyJoin (base : PyPath) (r : String) : PyPath :=
  if pyIsAbs r then ⟨splitSegs r⟩ else ⟨base.segs ++ splitSegs r⟩

/-- Canonicalize the segments of an absolute path: ".." removes the
preceding segment (and is a no-op at the root), as `Path.resolve()` does
on a symlink-free tree.  "." segments were already dropped at parse time. -/
def normSegs (segs : List String) : List String :=
  segs.foldl (fun acc s => if s = ".." then acc.dropLast else acc ++ [s]) []

/-- `Path.resolve()` on a symlink-free filesystem. -/
def pyResolve (p : PyPath) : PyPath := ⟨normSegs p.segs⟩

/-- `str(p)` for an absolute pathlib path. -/
def strPath (p : PyPath) : String :=
  if p.segs = [] then "/" else p.segs.foldl (fun acc s => acc ++ "/" ++ s) ""

/-! ### The filesystem state -/

/-- The filesystem as the program observes it: which absolute paths exist
as directories and which as regular files. -/
structure FS where
  dirs : List (List String)
  files : List (List String)
deriving DecidableEq

/-- Add a directory if it is not already present (`mkdir` with
`exist_ok=True` changes nothing on an existing directory). -/
def addDir (l : List (List String)) (p : List String) : List (List String) :=
  if p ∈ l then l else l ++ [p]

/-- The nonempty prefixes of a segment list: the directory itself and all
its ancestors below the root. -/
def prefixesOf (segs : List String) : List (List String) :=
  (List.range segs.length).map (fun i => segs.take (i + 1))

/-- `p.mkdir(parents=True, exist_ok=True)`: create the directory and every
missing ancestor; existing directories are left untouched. -/
def mkdirParents (fs : FS) (p : PyPath) : FS :=
  { fs with dirs := (prefixesOf p.segs).foldl addDir fs.dirs }

/-- Whether a path exists on the filesystem (`Path.exists`). -/
def existsPath (fs : FS) (segs : List String) : Bool :=
  decide (segs ∈ fs.dirs) || decide (segs ∈ fs.files)

/-! ### safe_path (src/main.py lines 81-90) -/

/-- `FTP_ROOT`, the configured storage root (default
"/srv/stl-hub/files"). -/
def FTP_ROOT : PyPath := ⟨["srv", "stl-hub", "files"]⟩

/-- Line 83: the identity-to-directory encoding,
`user_email.replace("@", "_at_").replace(".", "_")`. -/
def encode_email (email : String) : String :=
  pyReplace (pyReplace email "@" "_at_") "." "_"

/-- Line 83: `user_dir = FTP_ROOT / user_email.replace(...)`, with pathlib
joining semantics. -/
def user_dir_of (email : String) : PyPath :=
  pyJoin FTP_ROOT (encode_email email)

/-- The failure raised by `safe_path` (HTTPException 400 "Invalid path"). -/
inductive PathError where
  | containment
deriving DecidableEq

/-- Lines 85-90 of `safe_path`, the pure part (the filesystem write of
line 84 is `mkdirParents`, applied by `safe_path` below): return the user
root for an empty relative path, otherwise join, resolve, and apply the
`str(resolved).startswith(str(user_dir.resolve()))` containment test. -/
def safe_path_result (email relative : String) : Except PathError PyPath :=
  let user_dir := user_dir_of email
  if relative = "" ∨ relative = "." ∨ relative = "/" then .ok user_dir
  else
    let resolved := pyResolve (pyJoin user_dir relative)
    if pyStartswith (strPath resolved) (strPath (pyResolve user_dir)) then .ok resolved
    else .error .containment

/-- `safe_path(user_email, relative)` (lines 81-90): create the user root
directory (with parents) as a side effect, then compute the result. -/
def safe_path (fs : FS) (email relative : String) :
    FS × Except PathError PyPath :=
  (mkdirParents fs (user_dir_of email), safe_path_result email relative)

instance {ε α : Type} [DecidableEq ε] [DecidableEq α] :
    DecidableEq (Except ε α) := fun a b =>
  match a, b with
  | .ok x, .ok y =>
    if h : x = y then .isTrue (by rw [h]) else .isFalse (by simp [h])
  | .error x, .error y =>
    if h : x = y then .isTrue (by rw [h]) else .isFalse (by simp [h])
  | .ok _, .error _ => .isFalse (by simp)
  | .error _, .ok _ => .isFalse (by simp)

/-- A path lies under a root (is the root or a strict descendant) when the
root's segments are a prefix of its segments. -/
def isUnder (p root : PyPath) : Prop := root.segs <+: p.segs

instance (p root : PyPath) : Decidable (isUnder p root) := by
  unfold isUnder; infer_instance

/-! ### The listing sort (src/main.py line 192)

Python `sorted(items, key=lambda p: (p.is_file(), p.name.lower()))` is a
stable sort by the two-component key.  It is modelled by a stable
insertion sort over the same boolean comparison, which agrees with any
stable sort by a total preorder. -/

/-- A child entry as the sort sees it: its final name and whether it is a
regular file (`p.is_file()`). -/
structure DirChild where
  name : String
  is_file : Bool
deriving DecidableEq

/-- Lexicographic comparison of code-point lists, Python string `<=`. -/
def lexLeN : List Nat → List Nat → Bool
  | [], _ => true
  | _ :: _, [] => false
  | a :: as, b :: bs => if a = b then lexLeN as bs else decide (a < b)

/-- The secondary sort key: the code points of the lowercased name
(Python compares strings by code point). -/
def lowerKey (s : String) : List Nat := (strLower s).data.map Char.toNat

/-- Python tuple comparison on the sort key
`(p.is_file(), p.name.lower())`: `False < True` on the primary key,
code-point order on the lowercased name as tiebreak. -/
def childLe (a b : DirChild) : Bool :=
  if a.is_file = b.is_file then lexLeN (lowerKey a.name) (lowerKey b.name)
  else !a.is_file && b.is_file

/-- Insert an element into a sorted list, before the first element it
compares less-or-equal to; this is the stable insertion position. -/
def insertSorted {α : Type} (le : α → α → Bool) (x : α) : List α → List α
  | [] => [x]
  | y :: ys => if le x y then x :: y :: ys else y :: insertSorted le x ys

/-- A stable sort by the boolean comparison `le`; for a total transitive
`le` this is extensionally Python `sorted`. -/
def stableSort {α : Type} (le : α → α → Bool) : List α → List α
  | [] => []
  | x :: xs => insertSorted le x (stableSort le xs)

/-- Line 192: the listing order. -/
def pySortedChildren (l : List DirChild) : List DirChild :=
  stableSort childLe l

/-! ### file_info (src/main.py lines 93-102) -/

/-- A local civil time, as `datetime.fromtimestamp` returns for the
modification instant of a file. -/
structure LocalTime where
  year : Nat
  month : Nat
  day : Nat
  hour : Nat
  minute : Nat
  second : Nat
deriving DecidableEq

/-- Two zero-padded decimal digits, the strftime `%m`/`%d`/`%H`/`%M`
fields (their values are below 100). -/
def pad2 (n : Nat) : String :=
  ⟨[Nat.digitChar (n / 10 % 10), Nat.digitChar (n % 10)]⟩

/-- Four zero-padded decimal digits, the strftime `%Y` field (calendar
years of file timestamps are below 10000). -/
def pad4 (n : Nat) : String :=
  ⟨[Nat.digitChar (n / 1000 % 10), Nat.digitChar (n / 100 % 10),
    Nat.digitChar (n / 10 % 10), Nat.digitChar (n % 10)]⟩

/-- Line 100: `strftime("%Y-%m-%d %H:%M")` on a local time.  The second
field of the time is not consulted. -/
def strftimeYmdHM (t : LocalTime) : String :=
  pad4 t.year ++ "-" ++ pad2 t.month ++ "-" ++ pad2 t.day ++ " " ++
    pad2 t.hour ++ ":" ++ pad2 t.minute

/-- pathlib `Path.suffix` of a final path component: the substring from
the last dot, provided that dot is neither the first nor the last
character; otherwise the empty string. -/
def lastDotIdx : List Char → Nat → Option Nat → Option Nat
  | [], _, acc => acc
  | c :: rest, i, acc =>
    lastDotIdx rest (i + 1) (if c = '.' then some i else acc)

/-- `Path(name).suffix` for a single component `name`. -/
def pySuffix (name : String) : String :=
  match lastDotIdx name.data 0 none with
  | none => ""
  | some i =>
    if 0 < i ∧ i + 1 < name.data.length then ⟨name.data.drop i⟩ else ""

/-- What `file_info` reads about one child: the stat data and type flags
of the path, plus its name and its segments relative to the listing
base (`path.relative_to(base)`). -/
structure FsNode where
  name : String
  relSegs : List String
  is_dir : Bool
  is_file : Bool
  st_size : Nat
  mtime : LocalTime
deriving DecidableEq

/-- One listing record, the dict built by `file_info`. -/
structure Entry where
  name : String
  path : String
  is_dir : Bool
  size : Nat
  modified : String
  is_stl : Bool
deriving DecidableEq

/-- The relative-path string `str(path.relative_to(base))`. -/
def relStr (segs : List String) : String :=
  match segs with
  | [] => "."
  | s :: rest => rest.foldl (fun acc t => acc ++ "/" ++ t) s

/-- `file_info(path, base)` (lines 93-102). -/
def file_info (n : FsNode) : Entry :=
  { name := n.name
    path := relStr n.relSegs
    is_dir := n.is_dir
    size := if n.is_file then n.st_size else 0
    modified := strftimeYmdHM n.mtime
    is_stl := strLower (pySuffix n.name) = ".stl" }

/-! ### list_files (src/main.py lines 183-197) and
delete_file (lines 219-229) -/

/-- How `list_files` fails for a resolved target: the explicit 404 of
line 190 when the target does not exist, and the built-in
`NotADirectoryError` that `target.iterdir()` (line 192) raises when the
target exists but is not a directory.  There is no catch-all branch. -/
inductive ListError where
  | notFound
  | notADirectory
deriving DecidableEq

/-- The immediate children of a directory, as `target.iterdir()` yields
them (directories and files whose parent is `dir`), with their
`is_file()` flag. -/
def childrenOf (fs : FS) (dir : List String) : List DirChild :=
  (fs.dirs.filterMap fun p =>
    match p.getLast? with
    | some n => if p.dropLast = dir then some ⟨n, false⟩ else none
    | none => none) ++
  (fs.files.filterMap fun p =>
    match p.getLast? with
    | some n => if p.dropLast = dir then some ⟨n, true⟩ else none
    | none => none)

/-- Lines 189-192 of `list_files`, for an already-resolved target: fail
with 404 if the target does not exist, let `iterdir` fail with
`NotADirectoryError` if it exists but is not a directory, and otherwise
return the children in the line-192 sort order. -/
def list_files (fs : FS) (target : PyPath) :
    Except ListError (List DirChild) :=
  if existsPath fs target.segs = false then .error .notFound
  else if target.segs ∈ fs.dirs then .ok (pySortedChildren (childrenOf fs target.segs))
  else .error .notADirectory

/-- How `delete_file` fails: the 400 raised inside `safe_path`, or the
404 of line 224. -/
inductive DeleteError where
  | invalidPath
  | notFound
deriving DecidableEq

/-- `shutil.rmtree(target)`: remove the directory and its entire subtree. -/
def rmtree (fs : FS) (t : List String) : FS :=
  ⟨fs.dirs.filter (fun p => !decide (t <+: p)),
   fs.files.filter (fun p => !decide (t <+: p))⟩

/-- `target.unlink()`: remove the single file. -/
def unlink (fs : FS) (t : List String) : FS :=
  { fs with files := fs.files.filter (fun p => !decide (p = t)) }

/-- `delete_file` (lines 219-229): resolve the client path (creating the
user root as `safe_path` does), 404 when the target does not exist,
`rmtree` a directory, `unlink` a file, and answer
`{"message": f"Deleted {path}"}` with the client-supplied relative path. -/
def delete_file (fs : FS) (email rel : String) :
    FS × Except DeleteError String :=
  let fs1 := mkdirParents fs (user_dir_of email)
  match safe_path_result email rel with
  | .error _ => (fs1, .error .invalidPath)
  | .ok target =>
    if existsPath fs1 target.segs = false then (fs1, .error .notFound)
    else if target.segs ∈ fs1.dirs then
      (rmtree fs1 target.segs, .ok ("Deleted " ++ rel))
    else
      (unlink fs1 target.segs, .ok ("Deleted " ++ rel))

/-! ### Order properties of the listing comparison -/

theorem lexLeN_total : ∀ a b : List Nat, lexLeN a b = true ∨ lexLeN b a = true := by
  intro a
  induction a with
  | nil => intro b; left; rfl
  | cons x xs ih =>
    intro b
    cases b with
    | nil => right; rfl
    | cons y ys =>
      by_cases hxy : x = y
      · subst hxy
        rcases ih ys with h | h
        · left; simpa [lexLeN] using h
        · right; simpa [lexLeN] using h
      · rcases Nat.lt_or_ge x y with h | h
        · left; simp [lexLeN, hxy, h]
        · right
          have hyx : y ≠ x := fun e => hxy e.symm
          have : y < x := lt_of_le_of_ne h hyx
          simp [lexLeN, hyx, this]

theorem lexLeN_trans :
    ∀ a b c : List Nat, lexLeN a b = true → lexLeN b c = true → lexLeN a c = true := by
  intro a
  induction a with
  | nil => intro b c _ _; rfl
  | cons x xs ih =>
    intro b c hab hbc
    cases b with
    | nil => simp [lexLeN] at hab
    | cons y ys =>
      cases c with
      | nil => simp [lexLeN] at hbc
      | cons z zs =>
        by_cases hxy : x = y <;> by_cases hyz : y = z
        · subst hxy; subst hyz
          simp only [lexLeN, if_pos rfl] at hab hbc ⊢
          exact ih ys zs hab hbc
        · subst hxy
          simp only [lexLeN, if_neg hyz] at hbc ⊢
          exact hbc
        · subst hyz
          simp only [lexLeN, if_neg hxy] at hab ⊢
          exact hab
        · simp only [lexLeN, if_neg hxy] at hab
          simp only [lexLeN, if_neg hyz] at hbc
          have hab' : x < y := of_decide_eq_true hab
          have hbc' : y < z := of_decide_eq_true hbc
          have hxz : x < z := Nat.lt_trans hab' hbc'
          simp [lexLeN, Nat.ne_of_lt hxz, hxz]

theorem childLe_total : ∀ a b : DirChild, childLe a b = true ∨ childLe b a = true := by
  intro a b
  unfold childLe
  by_cases h : a.is_file = b.is_file
  · rw [if_pos h, if_pos h.symm]
    exact lexLeN_total _ _
  · have h' : b.is_file ≠ a.is_file := fun e => h e.symm
    rw [if_neg h, if_neg h']
    cases ha : a.is_file <;> cases hb : b.is_file <;> simp_all

theorem childLe_trans :
    ∀ a b c : DirChild, childLe a b = true → childLe b c = true → childLe a c = true := by
  intro a b c hab hbc
  unfold childLe at hab hbc ⊢
  by_cases h1 : a.is_file = b.is_file <;> by_cases h2 : b.is_file = c.is_file
  · rw [if_pos h1] at hab
    rw [if_pos h2] at hbc
    rw [if_pos (h1.trans h2)]
    exact lexLeN_trans _ _ _ hab hbc
  · rw [if_neg h2] at hbc
    rw [if_neg (h1 ▸ h2)]
    exact h1 ▸ hbc
  · rw [if_neg h1] at hab
    rw [if_neg (h2 ▸ h1)]
    exact h2 ▸ hab
  · rw [if_neg h1] at hab
    rw [if_neg h2] at hbc
    cases ha : a.is_file <;> cases hb : b.is_file <;> cases hc : c.is_file <;> simp_all

/-! ### The stable sort: permutation, sortedness, stability -/

theorem insertSorted_perm {α : Type} (le : α → α → Bool) (x : α) :
    ∀ l : List α, insertSorted le x l ~ x :: l := by
  intro l
  induction l with
  | nil => rfl
  | cons y ys ih =>
    by_cases h : le x y = true
    · rw [insertSorted, if_pos h]
    · rw [insertSorted, if_neg h]
      exact (ih.cons y).trans (List.Perm.swap x y ys)

theorem stableSort_perm {α : Type} (le : α → α → Bool) :
    ∀ l : List α, stableSort le l ~ l := by
  intro l
  induction l with
  | nil => rfl
  | cons x xs ih =>
    exact (insertSorted_perm le x (stableSort le xs)).trans (ih.cons x)

theorem mem_insertSorted {α : Type} {le : α → α → Bool} {x z : α} {l : List α} :
    z ∈ insertSorted le x l ↔ z = x ∨ z ∈ l := by
  rw [(insertSorted_perm le x l).mem_iff, List.mem_cons]

theorem pairwise_insertSorted {α : Type} {le : α → α → Bool}
    (htrans : ∀ a b c, le a b = true → le b c = true → le a c = true)
    (htotal : ∀ a b, le a b = true ∨ le b a = true)
    {x : α} {l : List α} (h : l.Pairwise (fun a b => le a b = true)) :
    (insertSorted le x l).Pairwise (fun a b => le a b = true) := by
  induction l with
  | nil => simp [insertSorted]
  | cons y ys ih =>
    rcases List.pairwise_cons.mp h with ⟨hy, hys⟩
    by_cases hxy : le x y = true
    · rw [insertSorted, if_pos hxy]
      refine List.pairwise_cons.mpr ⟨?_, h⟩
      intro z hz
      rcases List.mem_cons.mp hz with rfl | hz'
      · exact hxy
      · exact htrans x y z hxy (hy z hz')
    · rw [insertSorted, if_neg hxy]
      refine List.pairwise_cons.mpr ⟨?_, ih hys⟩
      intro z hz
      rcases mem_insertSorted.mp hz with rfl | hz'
      · rcases htotal z y with h' | h'
        · exact absurd h' hxy
        · exact h'
      · exact hy z hz'

theorem pairwise_stableSort {α : Type} {le : α → α → Bool}
    (htrans : ∀ a b c, le a b = true → le b c = true → le a c = true)
    (htotal : ∀ a b, le a b = true ∨ le b a = true) :
    ∀ l : List α, (stableSort le l).Pairwise (fun a b => le a b = true) := by
  intro l
  induction l with
  | nil => simp [stableSort]
  | cons x xs ih => exact pairwise_insertSorted htrans htotal ih

theorem sublist_insertSorted {α : Type} (le : α → α → Bool) (x : α) :
    ∀ l : List α, l <+ insertSorted le x l := by
  intro l
  induction l with
  | nil => exact List.nil_sublist _
  | cons y ys ih =>
    by_cases h : le x y = true
    · rw [insertSorted, if_pos h]
      exact List.sublist_cons_self x (y :: ys)
    · rw [insertSorted, if_neg h]
      exact ih.cons₂ y

theorem pair_sublist_insertSorted {α : Type} {le : α → α → Bool} {a b : α}
    (hab : le a b = true) :
    ∀ {l : List α}, [b] <+ l → [a, b] <+ insertSorted le a l := by
  intro l
  induction l with
  | nil => intro h; cases h
  | cons y ys ih =>
    intro h
    by_cases hay : le a y = true
    · rw [insertSorted, if_pos hay]
      exact h.cons₂ a
    · rw [insertSorted, if_neg hay]
      cases h with
      | cons _ h' => exact (ih h').cons y
      | cons₂ _ h' => exact absurd hab hay

theorem pair_sublist_stableSort {α : Type} {le : α → α → Bool} {a b : α}
    (hab : le a b = true) :
    ∀ {l : List α}, [a, b] <+ l → [a, b] <+ stableSort le l := by
  intro l
  induction l with
  | nil => intro h; cases h
  | cons y ys ih =>
    intro h
    cases h with
    | cons _ h' =>
      exact (ih h').trans (sublist_insertSorted le y (stableSort le ys))
    | cons₂ _ h' =>
      refine pair_sublist_insertSorted hab ?_
      rw [List.singleton_sublist] at h' ⊢
      exact ((stableSort_perm le ys).mem_iff).mpr h'

/-! ### Idempotence of the lazy user-root creation -/

theorem mem_addDir_of_mem {l : List (List String)} {p q : List String}
    (h : q ∈ l) : q ∈ addDir l p := by
  unfold addDir
  split
  · exact h
  · exact List.mem_append_left _ h

theorem mem_addDir_self (l : List (List String)) (p : List String) :
    p ∈ addDir l p := by
  unfold addDir
  split
  · assumption
  · exact List.mem_append_right _ (List.mem_singleton.mpr rfl)

theorem mem_foldl_addDir_of_mem {xs : List (List String)}
    {l : List (List String)} {q : List String} (h : q ∈ l) :
    q ∈ xs.foldl addDir l := by
  induction xs generalizing l with
  | nil => exact h
  | cons x xs ih => exact ih (mem_addDir_of_mem h)

theorem mem_foldl_addDir_of_mem_xs {xs : List (List String)}
    {l : List (List String)} {q : List String} (h : q ∈ xs) :
    q ∈ xs.foldl addDir l := by
  induction xs generalizing l with
  | nil => cases h
  | cons x xs ih =>
    rw [List.foldl_cons]
    rcases List.mem_cons.mp h with rfl | h'
    · exact mem_foldl_addDir_of_mem (mem_addDir_self l q)
    · exact ih h'

theorem foldl_addDir_of_all_mem {xs : List (List String)} :
    ∀ {l : List (List String)}, (∀ q ∈ xs, q ∈ l) → xs.foldl addDir l = l := by
  induction xs with
  | nil => intro l _; rfl
  | cons x xs ih =>
    intro l h
    have hx : x ∈ l := h x (List.mem_cons_self x xs)
    have hstep : addDir l x = l := by unfold addDir; rw [if_pos hx]
    rw [List.foldl_cons, hstep]
    exact ih (fun q hq => h q (List.mem_cons_of_mem x hq))

theorem mkdirParents_idem (fs : FS) (p : PyPath) :
    mkdirParents (mkdirParents fs p) p = mkdirParents fs p := by
  unfold mkdirParents
  have h : ∀ q ∈ prefixesOf p.segs, q ∈ (prefixesOf p.segs).foldl addDir fs.dirs :=
    fun q hq => mem_foldl_addDir_of_mem_xs hq
  simp [foldl_addDir_of_all_mem h]

/-! ### The claims -/

/-- C1: the claim that a path returned by `safe_path` always equals the
canonicalized user root or is a strict descendant of it, that the
containment test rejects sibling directories whose name has the user
root's name as a string prefix, and that inputs containing "../" either
fail or stay under the user root, is FALSE of the code: the
`str(resolved).startswith(str(user_dir.resolve()))` test of line 88 is a
plain string prefix test, so for identity "bob" the input "../bob2"
(which contains "../") resolves to the sibling directory
"/srv/stl-hub/files/bob2" and is accepted, contradicting the function's
own docstring ("a safe absolute path within the user's directory"). -/
theorem c1_containment_accepts_string_prefix_sibling :
    ("../" : String).data <:+: ("../bob2" : String).data
    ∧ user_dir_of "bob" = ⟨["srv", "stl-hub", "files", "bob"]⟩
    ∧ safe_path_result "bob" "../bob2" = .ok ⟨["srv", "stl-hub", "files", "bob2"]⟩
    ∧ ¬ isUnder ⟨["srv", "stl-hub", "files", "bob2"]⟩ (user_dir_of "bob") := by
  decide

/-- C2: the claim that the identity-to-root encoding is injective is
FALSE of the code: the substitution of line 83 sends the two distinct
identities "a.b@c.d" and "a_b@c.d" (both well-formed email addresses) to
the same encoded directory name "a_b_at_c_d", so both identities resolve
to the same user root. -/
theorem c2_encoding_collision :
    ("a.b@c.d" : String) ≠ "a_b@c.d"
    ∧ encode_email "a.b@c.d" = encode_email "a_b@c.d"
    ∧ user_dir_of "a.b@c.d" = user_dir_of "a_b@c.d"
    ∧ safe_path_result "a.b@c.d" "" = safe_path_result "a_b@c.d" "" := by
  decide

/-- C3 counterexample: the relative path "//" consists only of separator
characters, yet `safe_path` does not treat it as empty: it is not in the
`("", ".", "/")` early-return set, pathlib parses it as an absolute path
that replaces the user-root base in the join, and the containment test
then rejects it, so resolution fails instead of returning the user root. -/
theorem c3_counterexample_double_slash_rejected :
    safe_path_result "bob" "//" = .error .containment
    ∧ safe_path_result "bob" "//" ≠ .ok (user_dir_of "bob") := by
  decide

/-- C3 (amended): for every identity, the relative paths "", "." and "/"
all resolve to the user root without reaching the containment check; but
a relative path of several separators such as "//" is NOT treated as
empty — it is parsed as an absolute path replacing the base and fails the
containment check (shown for the identity "bob"). -/
theorem c3_empty_dot_slash_return_user_root :
    (∀ email : String,
      safe_path_result email "" = .ok (user_dir_of email)
      ∧ safe_path_result email "." = .ok (user_dir_of email)
      ∧ safe_path_result email "/" = .ok (user_dir_of email))
    ∧ safe_path_result "bob" "//" = .error .containment := by
  exact ⟨fun email => ⟨rfl, rfl, rfl⟩, by decide⟩

/-- C3 witness: the amended statement applied to a concrete identity. -/
theorem c3_empty_dot_slash_return_user_root_witness :
    safe_path_result "bob" "" = .ok (user_dir_of "bob")
    ∧ safe_path_result "bob" "." = .ok (user_dir_of "bob")
    ∧ safe_path_result "bob" "/" = .ok (user_dir_of "bob") :=
  c3_empty_dot_slash_return_user_root.1 "bob"

/-- C4 counterexample: the claim that an absolute-looking relative path
is interpreted relative to the user root is FALSE of the code: pathlib's
join lets "/etc/passwd" replace the user-root base entirely (the
candidate is `/etc/passwd`, not `<user root>/etc/passwd`), and the
containment check then rejects it, so the input errors instead of
resolving under the user root. -/
theorem c4_counterexample_absolute_replaces_base :
    pyIsAbs "/etc/passwd" = true
    ∧ pyJoin (user_dir_of "bob") "/etc/passwd" = ⟨["etc", "passwd"]⟩
    ∧ safe_path_result "bob" "/etc/passwd" = .error .containment
    ∧ safe_path_result "bob" "/etc/passwd" ≠
        .ok ⟨["srv", "stl-hub", "files", "bob", "etc", "passwd"]⟩ := by
  decide

/-- C4 (amended): an absolute-looking relative path (other than the
early-return "/") replaces the user-root base in the join, so resolution
either fails with the containment error or returns the canonicalized
literal absolute location itself — it is never reinterpreted as a path
under the user root. -/
theorem c4_absolute_input_not_reanchored (email r : String)
    (habs : pyIsAbs r = true) (hr : r ≠ "/") :
    safe_path_result email r = .error .containment
    ∨ safe_path_result email r = .ok (pyResolve ⟨splitSegs r⟩) := by
  have h0 : r ≠ "" := fun e => absurd (e ▸ habs) (by decide)
  have h1 : r ≠ "." := fun e => absurd (e ▸ habs) (by decide)
  unfold safe_path_result
  rw [if_neg (by simp [h0, h1, hr])]
  simp only [pyJoin, if_pos habs]
  by_cases h : pyStartswith (strPath (pyResolve ⟨splitSegs r⟩))
      (strPath (pyResolve (user_dir_of email))) = true
  · right; simp [h]
  · left; simp [h]

/-- C4 witness: the amended statement applied to a concrete input. -/
theorem c4_absolute_input_not_reanchored_witness :
    safe_path_result "bob" "/etc/passwd" = .error .containment
    ∨ safe_path_result "bob" "/etc/passwd" = .ok (pyResolve ⟨splitSegs "/etc/passwd"⟩) :=
  c4_absolute_input_not_reanchored "bob" "/etc/passwd" (by decide) (by decide)

/-- C5: resolving the empty relative path never errors and is
idempotent: both of two successive calls return the user root, and the
second call leaves the filesystem exactly as the first left it (the
directory creation changes nothing once the directory exists). -/
theorem c5_resolve_root_idempotent (fs : FS) (email : String) :
    (safe_path fs email "").2 = .ok (user_dir_of email)
    ∧ (safe_path (safe_path fs email "").1 email "").2 = .ok (user_dir_of email)
    ∧ (safe_path (safe_path fs email "").1 email "").1 = (safe_path fs email "").1 := by
  refine ⟨rfl, rfl, ?_⟩
  simp only [safe_path]
  exact mkdirParents_idem fs (user_dir_of email)

/-- C5 witness: idempotence at a concrete identity on the empty
filesystem. -/
theorem c5_resolve_root_idempotent_witness :
    (safe_path ⟨[], []⟩ "bob" "").2 = .ok (user_dir_of "bob")
    ∧ (safe_path (safe_path ⟨[], []⟩ "bob" "").1 "bob" "").2 = .ok (user_dir_of "bob")
    ∧ (safe_path (safe_path ⟨[], []⟩ "bob" "").1 "bob" "").1 = (safe_path ⟨[], []⟩ "bob" "").1 :=
  c5_resolve_root_idempotent ⟨[], []⟩ "bob"

/-- C6: the listing order of line 192 is a stable two-key sort: the
output is a permutation of the children, it is ordered by the key
"(is a regular file, lowercased name)" with false before true on the
primary key and code-point comparison of the lowercased names as
secondary key, any two children already in key order keep their relative
order (stability), and a directory with files "b.txt", "a.txt" and
subdirectory "Z" lists as Z, a.txt, b.txt. -/
theorem c6_listing_sort_order :
    (∀ l : List DirChild, pySortedChildren l ~ l)
    ∧ (∀ l : List DirChild,
        (pySortedChildren l).Pairwise (fun a b => childLe a b = true))
    ∧ (∀ (a b : DirChild) (l : List DirChild),
        childLe a b = true → [a, b] <+ l → [a, b] <+ pySortedChildren l)
    ∧ pySortedChildren [⟨"b.txt", true⟩, ⟨"a.txt", true⟩, ⟨"Z", false⟩] =
        [⟨"Z", false⟩, ⟨"a.txt", true⟩, ⟨"b.txt", true⟩] := by
  exact ⟨fun l => stableSort_perm _ l,
    fun l => pairwise_stableSort childLe_trans childLe_total l,
    fun a b l hab h => pair_sublist_stableSort hab h,
    by decide⟩

/-- C6 witness: stability at a concrete input — two files whose names
differ only by case have equal sort keys and keep their original
relative order in the sorted listing. -/
theorem c6_listing_sort_order_witness :
    [(⟨"A.stl", true⟩ : DirChild), ⟨"a.STL", true⟩] <+
      pySortedChildren [⟨"Z", false⟩, ⟨"A.stl", true⟩, ⟨"a.STL", true⟩] :=
  c6_listing_sort_order.2.2.1 ⟨"A.stl", true⟩ ⟨"a.STL", true⟩
    [⟨"Z", false⟩, ⟨"A.stl", true⟩, ⟨"a.STL", true⟩] (by decide) (by decide)

/-- C7: for every child entry built by `file_info`: the size is 0 for a
directory and the stat byte length for a regular file; the modified field
is the local modification time rendered through the fixed
"YYYY-MM-DD HH:MM" format — a 16-character string that ignores the
seconds (no finer granularity) and carries no timezone suffix — and the
is-STL flag is a case-insensitive suffix comparison against ".stl", so
"Model.STL" classifies true and "model.stla" classifies false. -/
theorem c7_file_info_fields :
    (∀ n : FsNode, n.is_dir = true → n.is_file = false → (file_info n).size = 0)
    ∧ (∀ n : FsNode, n.is_file = true → (file_info n).size = n.st_size)
    ∧ (∀ n : FsNode, (file_info n).modified = strftimeYmdHM n.mtime)
    ∧ (∀ (t : LocalTime) (s₁ s₂ : Nat),
        strftimeYmdHM { t with second := s₁ } = strftimeYmdHM { t with second := s₂ })
    ∧ (∀ t : LocalTime, (strftimeYmdHM t).length = 16)
    ∧ (∀ n : FsNode,
        (file_info n).is_stl = decide (strLower (pySuffix n.name) = ".stl"))
    ∧ (file_info ⟨"Model.STL", ["Model.STL"], false, true, 120,
        ⟨2024, 3, 7, 9, 5, 59⟩⟩).is_stl = true
    ∧ (file_info ⟨"model.stla", ["model.stla"], false, true, 120,
        ⟨2024, 3, 7, 9, 5, 59⟩⟩).is_stl = false := by
  refine ⟨fun n _ hf => ?_, fun n hf => ?_, fun n => rfl, fun t s₁ s₂ => rfl,
    fun t => ?_, fun n => rfl, by decide, by decide⟩
  · simp [file_info, hf]
  · simp [file_info, hf]
  · simp [strftimeYmdHM, String.length_append, pad2, pad4, String.length]

/-- C7 witness: the field contract evaluated on a concrete directory and
a concrete file. -/
theorem c7_file_info_fields_witness :
    (file_info ⟨"sub", ["sub"], true, false, 7, ⟨2024, 3, 7, 9, 5, 59⟩⟩).size = 0
    ∧ (file_info ⟨"part.stl", ["part.stl"], false, true, 120,
        ⟨2024, 3, 7, 9, 5, 59⟩⟩).size = 120 :=
  ⟨c7_file_info_fields.1 _ rfl rfl, c7_file_info_fields.2.1 _ rfl⟩

/-- C8: for an already-resolved target, the lister fails with the 404
not-found condition when the target does not exist, with the distinct
built-in not-a-directory condition when it exists but is not a directory,
and the two conditions are different (neither is a catch-all). -/
theorem c8_lister_error_conditions (fs : FS) (target : PyPath) :
    (existsPath fs target.segs = false → list_files fs target = .error .notFound)
    ∧ (existsPath fs target.segs = true → target.segs ∉ fs.dirs →
        list_files fs target = .error .notADirectory)
    ∧ ListError.notFound ≠ ListError.notADirectory := by
  refine ⟨fun h => ?_, fun h1 h2 => ?_, by decide⟩
  · unfold list_files
    rw [if_pos h]
  · unfold list_files
    rw [if_neg (by simp [h1]), if_neg h2]

/-- C8 witness: both failure conditions at concrete filesystems — a
missing target and a target that is a regular file. -/
theorem c8_lister_error_conditions_witness :
    list_files ⟨[], []⟩ ⟨["x"]⟩ = .error .notFound
    ∧ list_files ⟨[], [["f"]]⟩ ⟨["f"]⟩ = .error .notADirectory :=
  ⟨(c8_lister_error_conditions ⟨[], []⟩ ⟨["x"]⟩).1 (by decide),
   (c8_lister_error_conditions ⟨[], [["f"]]⟩ ⟨["f"]⟩).2.1 (by decide) (by decide)⟩

/-- C9 counterexample: deleting the non-existent in-root path
"missing/file.stl" does fail with the not-found error and reports no
success, but the claim that the filesystem is unchanged by the failed
delete is FALSE of the code: `safe_path` runs
`user_dir.mkdir(parents=True, exist_ok=True)` before the existence check,
so on a filesystem where the user root does not yet exist the failed
delete still creates it. -/
theorem c9_counterexample_failed_delete_creates_root :
    (delete_file ⟨[], []⟩ "bob" "missing/file.stl").2 = .error .notFound
    ∧ (delete_file ⟨[], []⟩ "bob" "missing/file.stl").1 ≠ ⟨[], []⟩
    ∧ ["srv", "stl-hub", "files", "bob"] ∈
        (delete_file ⟨[], []⟩ "bob" "missing/file.stl").1.dirs := by
  decide

/-- C9 (amended): deleting an in-root relative path whose target does not
exist fails with the not-found error, does not report success, and
removes nothing — the only filesystem change is the lazy creation of the
user root by path resolution, so when the user root already exists the
filesystem is fully unchanged. -/
theorem c9_delete_missing_not_found (fs : FS) (email rel : String) (target : PyPath)
    (hok : safe_path_result email rel = .ok target)
    (hmiss : existsPath (mkdirParents fs (user_dir_of email)) target.segs = false) :
    (delete_file fs email rel).2 = .error .notFound
    ∧ (delete_file fs email rel).1 = mkdirParents fs (user_dir_of email)
    ∧ (mkdirParents fs (user_dir_of email) = fs → (delete_file fs email rel).1 = fs) := by
  unfold delete_file
  rw [hok]
  simp only [hmiss]
  refine ⟨rfl, rfl, fun h => ?_⟩
  simp [h]

/-- C9 witness: the amended statement on a filesystem where the user
root already exists: the failed delete errors and changes nothing. -/
theorem c9_delete_missing_not_found_witness :
    (delete_file
        ⟨[["srv"], ["srv", "stl-hub"], ["srv", "stl-hub", "files"],
          ["srv", "stl-hub", "files", "bob"]], []⟩ "bob" "missing/file.stl").2 =
      .error .notFound
    ∧ (delete_file
        ⟨[["srv"], ["srv", "stl-hub"], ["srv", "stl-hub", "files"],
          ["srv", "stl-hub", "files", "bob"]], []⟩ "bob" "missing/file.stl").1 =
      mkdirParents
        ⟨[["srv"], ["srv", "stl-hub"], ["srv", "stl-hub", "files"],
          ["srv", "stl-hub", "files", "bob"]], []⟩ (user_dir_of "bob")
    ∧ (mkdirParents
        ⟨[["srv"], ["srv", "stl-hub"], ["srv", "stl-hub", "files"],
          ["srv", "stl-hub", "files", "bob"]], []⟩ (user_dir_of "bob") =
        ⟨[["srv"], ["srv", "stl-hub"], ["srv", "stl-hub", "files"],
          ["srv", "stl-hub", "files", "bob"]], []⟩ →
      (delete_file
        ⟨[["srv"], ["srv", "stl-hub"], ["srv", "stl-hub", "files"],
          ["srv", "stl-hub", "files", "bob"]], []⟩ "bob" "missing/file.stl").1 =
        ⟨[["srv"], ["srv", "stl-hub"], ["srv", "stl-hub", "files"],
          ["srv", "stl-hub", "files", "bob"]], []⟩) :=
  c9_delete_missing_not_found
    ⟨[["srv"], ["srv", "stl-hub"], ["srv", "stl-hub", "files"],
      ["srv", "stl-hub", "files", "bob"]], []⟩ "bob" "missing/file.stl"
    ⟨["srv", "stl-hub", "files", "bob", "missing", "file.stl"]⟩
    (by decide) (by decide)

/-- C10: deleting an existing target reports success with the
client-supplied relative path; a directory target is removed by `rmtree`,
which deletes the directory together with its entire subtree (every path
it is an ancestor of, directories and files alike, including non-empty
subtrees) and nothing else; a file target is removed by `unlink`, which
deletes exactly that file and leaves all directories and other files in
place. -/
theorem c10_delete_existing_semantics (fs : FS) (email rel : String) (target : PyPath)
    (hok : safe_path_result email rel = .ok target)
    (hex : existsPath (mkdirParents fs (user_dir_of email)) target.segs = true) :
    (delete_file fs email rel).2 = .ok ("Deleted " ++ rel)
    ∧ (target.segs ∈ (mkdirParents fs (user_dir_of email)).dirs →
        (delete_file fs email rel).1 =
          rmtree (mkdirParents fs (user_dir_of email)) target.segs)
    ∧ (target.segs ∉ (mkdirParents fs (user_dir_of email)).dirs →
        (delete_file fs email rel).1 =
          unlink (mkdirParents fs (user_dir_of email)) target.segs)
    ∧ (∀ (fsx : FS) (t p : List String),
        (p ∈ (rmtree fsx t).dirs ↔ p ∈ fsx.dirs ∧ ¬ t <+: p)
        ∧ (p ∈ (rmtree fsx t).files ↔ p ∈ fsx.files ∧ ¬ t <+: p))
    ∧ (∀ (fsx : FS) (t : List String),
        (unlink fsx t).dirs = fsx.dirs
        ∧ ∀ p : List String, (p ∈ (unlink fsx t).files ↔ p ∈ fsx.files ∧ p ≠ t)) := by
  have hbranch :
      (delete_file fs email rel).2 = .ok ("Deleted " ++ rel)
      ∧ (target.segs ∈ (mkdirParents fs (user_dir_of email)).dirs →
          (delete_file fs email rel).1 =
            rmtree (mkdirParents fs (user_dir_of email)) target.segs)
      ∧ (target.segs ∉ (mkdirParents fs (user_dir_of email)).dirs →
          (delete_file fs email rel).1 =
            unlink (mkdirParents fs (user_dir_of email)) target.segs) := by
    unfold delete_file
    rw [hok]
    simp only [hex]
    by_cases hd : target.segs ∈ (mkdirParents fs (user_dir_of email)).dirs
    · rw [if_pos hd]
      exact ⟨rfl, fun _ => rfl, fun h => absurd hd h⟩
    · rw [if_neg hd]
      exact ⟨rfl, fun h => absurd h hd, fun _ => rfl⟩
  refine ⟨hbranch.1, hbranch.2.1, hbranch.2.2, fun fsx t p => ⟨?_, ?_⟩, fun fsx t => ⟨rfl, fun p => ?_⟩⟩
  · simp [rmtree, List.mem_filter]
  · simp [rmtree, List.mem_filter]
  · simp [unlink, List.mem_filter]

/-- C10 witness: deleting an existing non-empty directory succeeds and
reports the client-supplied relative path. -/
theorem c10_delete_existing_semantics_witness :
    (delete_file
        ⟨[["srv"], ["srv", "stl-hub"], ["srv", "stl-hub", "files"],
          ["srv", "stl-hub", "files", "bob"], ["srv", "stl-hub", "files", "bob", "d"]],
         [["srv", "stl-hub", "files", "bob", "d", "x.stl"]]⟩ "bob" "d").2 =
      .ok ("Deleted " ++ "d") :=
  (c10_delete_existing_semantics
    ⟨[["srv"], ["srv", "stl-hub"], ["srv", "stl-hub", "files"],
      ["srv", "stl-hub", "files", "bob"], ["srv", "stl-hub", "files", "bob", "d"]],
     [["srv", "stl-hub", "files", "bob", "d", "x.stl"]]⟩ "bob" "d"
    ⟨["srv", "stl-hub", "files", "bob", "d"]⟩ (by decide) (by decide)).1

end STLHub
